import Mathlib

/-!
TableComponent (src/TableTwo.jsx): a shallow embedding

The component keeps six pieces of view state (`columnOrder`, `columnWidths`,
`sortConfig`, `filters`, `searchTerm`, `currentPage`) and derives the visible
rows from `data` on every render.  Handlers become pure functions on the
state, the derived view becomes a pure function of `data` and the state.

Conventions of the embedding:

* a JavaScript object with string keys is an association list; reading a
  property is `objGet` (first binding, `none` for `undefined`), writing one is
  `objSet` (the spread `{...prev, [key]: value}`);
* a field value is a string or an integer number; rows are plain records,
  read through their own properties only;
* the operations the JavaScript engine supplies and whose tables are not part
  of the repository (`String.prototype.toLowerCase`, `Number.prototype.toString`,
  the relational comparison of strings) are the fields of `JsRuntime`; every
  general theorem holds for every runtime, `asciiRuntime` is used to evaluate
  the bundled fixture.
-/

namespace TableTwo

/-! ## Values, objects, runtime -/

/-- A displayable field value: a string or an (integer) number. -/
inductive Val where
  | str (s : String)
  | num (n : Int)
  deriving DecidableEq, Repr

/-- A JavaScript object with string keys, as an association list. -/
abbrev Obj (α : Type) := List (String × α)

/-- One record of `data`. -/
abbrev Row := Obj Val

/-- Property read `o[key]`; `none` stands for `undefined`. -/
def objGet {α : Type} : Obj α → String → Option α
  | [], _ => none
  | (k, v) :: o, key => if k = key then some v else objGet o key

/-- Property write as done by the spread `{...o, [key]: value}`. -/
def objSet {α : Type} : Obj α → String → α → Obj α
  | [], key, value => [(key, value)]
  | (k, v) :: o, key, value =>
    if k = key then (k, value) :: o else (k, v) :: objSet o key value

/-- `Object.keys(o)`. -/
def objKeys {α : Type} (o : Obj α) : List String := o.map Prod.fst

/-- `Object.values(o)`. -/
def objValues {α : Type} (o : Obj α) : List α := o.map Prod.snd

/-- Engine-supplied string operations. -/
structure JsRuntime where
  /-- `String.prototype.toLowerCase`. -/
  toLowerCase : String → String
  /-- `Number.prototype.toString` on an integer. -/
  numToString : Int → String
  /-- `a < b` on two strings. -/
  ltStr : String → String → Bool
  /-- `a < b` on a string and a number (through ToNumber). -/
  ltStrNum : String → Int → Bool
  /-- `a < b` on a number and a string (through ToNumber). -/
  ltNumStr : Int → String → Bool

/-- ASCII lower-casing, character by character. -/
def asciiLower (s : String) : String := String.mk (s.data.map Char.toLower)

/-- Decimal digits of a natural number, least significant first, by fuel. -/
def digitsRev : Nat → Nat → List Char
  | 0, _ => []
  | fuel + 1, n =>
    if n < 10 then [Char.ofNat (48 + n)]
    else Char.ofNat (48 + n % 10) :: digitsRev fuel (n / 10)

/-- Decimal form of an integer, as `Number.prototype.toString` prints it. -/
def decimal (n : Int) : String :=
  match n with
  | Int.ofNat m => String.mk (digitsRev (m + 1) m).reverse
  | Int.negSucc m => String.mk ('-' :: (digitsRev (m + 2) (m + 1)).reverse)

/-- A runtime for ASCII strings and decimal integers; a string that is not a
decimal integer compares as NaN against a number. -/
def asciiRuntime : JsRuntime where
  toLowerCase := asciiLower
  numToString := decimal
  ltStr := fun a b => decide (a < b)
  ltStrNum := fun a b => match a.toInt? with
    | some x => decide (x < b)
    | none => false
  ltNumStr := fun a b => match b.toInt? with
    | some y => decide (a < y)
    | none => false

/-- `value.toString()`. -/
def Val.toStr (rt : JsRuntime) : Val → String
  | Val.str s => s
  | Val.num n => rt.numToString n

/-- JavaScript truthiness of a value: `''` and `0` are falsy. -/
def Val.truthy : Val → Bool
  | Val.str s => decide (s ≠ "")
  | Val.num n => decide (n ≠ 0)

/-- `s.includes(t)`: `t` occurs in `s` as a contiguous substring. -/
def includes (s t : String) : Bool :=
  s.data.tails.any fun u => t.data.isPrefixOf u

/-- `a < b` on two property reads; any comparison with `undefined` is false. -/
def jsLt (rt : JsRuntime) : Option Val → Option Val → Bool
  | some (Val.num a), some (Val.num b) => decide (a < b)
  | some (Val.str a), some (Val.str b) => rt.ltStr a b
  | some (Val.str a), some (Val.num b) => rt.ltStrNum a b
  | some (Val.num a), some (Val.str b) => rt.ltNumStr a b
  | _, _ => false

/-- `Array.prototype.slice` index normalisation for an integer argument. -/
def relIndex (len : Nat) (i : Int) : Nat :=
  if i < 0 then (len + i).toNat else min i.toNat len

/-- `xs.slice(start, end)` for integer `start`, `end`. -/
def jsSlice {α : Type} (xs : List α) (start stop : Int) : List α :=
  let k := relIndex xs.length start
  let final := relIndex xs.length stop
  (xs.drop k).take (final - k)

/-- Insertion of `a` into a list ordered by the comparator: `a` goes in front
of the first element it does not compare greater than. -/
def insertBy {α : Type} (cmp : α → α → Int) (a : α) : List α → List α
  | [] => [a]
  | b :: l => if cmp a b ≤ 0 then a :: b :: l else b :: insertBy cmp a l

/-- `xs.sort(cmp)`.  The engine supplies `Array.prototype.sort`; ECMAScript
requires it to be stable.  It is modelled as stable insertion sort. -/
def jsSort {α : Type} (cmp : α → α → Int) (xs : List α) : List α :=
  xs.foldr (insertBy cmp) []

/-! ## View state -/

/-- Sort direction. -/
inductive Direction where
  | asc
  | desc
  deriving DecidableEq, Repr

/-- The object `{ key, direction }`; `none` stands for `null`. -/
structure SortConfig where
  key : Option String
  direction : Option Direction
  deriving DecidableEq, Repr

/-- Column descriptor `{ key, title }`. -/
structure Column where
  key : String
  title : String
  deriving DecidableEq, Repr

/-- The property name a sort key denotes in `a[key]`: `null` reads the
property called "null". -/
def propName : Option String → String
  | some k => k
  | none => "null"

/-- The component state (lines 7-18). -/
structure State where
  columnOrder : List String
  columnWidths : Obj Int
  sortConfig : Option SortConfig
  filters : Obj String
  searchTerm : String
  currentPage : Int

/-- The constant `pageSize`. -/
def pageSize : Nat := 5

/-- Initial state of a mounted component. -/
def initState (columns : List Column) : State where
  columnOrder := columns.map (fun col => col.key)
  columnWidths := columns.foldl (fun acc col => objSet acc col.key 150) []
  sortConfig := some { key := none, direction := none }
  filters := []
  searchTerm := ""
  currentPage := 1

/-! ## Handlers -/

/-- The object `handleSort` passes to `setSortConfig`. -/
def handleSort (sortConfig : Option SortConfig) (key : String) : SortConfig :=
  let direction :=
    match sortConfig with
    | some sc =>
      if sc.key = some key ∧ sc.direction = some Direction.asc then Direction.desc
      else Direction.asc
    | none => Direction.asc
  { key := some key, direction := some direction }

/-- The updater of `handleFilter`. -/
def handleFilter (prevFilters : Obj String) (key value : String) : Obj String :=
  objSet prevFilters key value

/-- The value `handleColumnOrderChange` stores. -/
def handleColumnOrderChange (newOrder : List String) : List String := newOrder

/-- The value `handlePageChange` stores. -/
def handlePageChange (page : Int) : Int := page

/-- The value `handleSearch` stores. -/
def handleSearch (rt : JsRuntime) (value : String) : String := rt.toLowerCase value

/-- The updater of `handleResize`. -/
def handleResize (prevWidths : Obj Int) (key : String) (newWidth : Int) : Obj Int :=
  objSet prevWidths key newWidth

/-- One movement event of a drag that captured `initialX` and `initialWidth`
at pointer-down (lines 76-84). -/
def handleMouseMove (key : String) (initialX initialWidth : Int) (clientX : Int)
    (columnWidths : Obj Int) : Obj Int :=
  let deltaX := clientX - initialX
  let newWidth := initialWidth + deltaX
  if newWidth > 50 then handleResize columnWidths key newWidth else columnWidths

/-! ## Derived view -/

/-- First `.filter` callback (lines 49-53).  `key` ranges over
`Object.keys(filters)`, so the read `filters[key]` finds a string. -/
def passesFilters (rt : JsRuntime) (filters : Obj String) (item : Row) : Bool :=
  (objKeys filters).all fun key =>
    match objGet item key with
    | some v =>
      if v.truthy then
        includes (rt.toLowerCase (v.toStr rt)) (rt.toLowerCase ((objGet filters key).getD ""))
      else true
    | none => true

/-- Second `.filter` callback (lines 54-58). -/
def passesSearch (rt : JsRuntime) (searchTerm : String) (item : Row) : Bool :=
  (objValues item).any fun value =>
    value.truthy && includes (rt.toLowerCase (value.toStr rt)) searchTerm

/-- The `.sort` comparator (lines 59-67). -/
def compareRows (rt : JsRuntime) (sortConfig : Option SortConfig) (a b : Row) : Int :=
  match sortConfig with
  | none => 0
  | some sc =>
    let key := propName sc.key
    let aValue := objGet a key
    let bValue := objGet b key
    if jsLt rt aValue bValue then (if sc.direction = some Direction.asc then -1 else 1)
    else if jsLt rt bValue aValue then (if sc.direction = some Direction.asc then 1 else -1)
    else 0

/-- The rows left by the two `.filter` calls. -/
def filteredData (rt : JsRuntime) (data : List Row) (filters : Obj String)
    (searchTerm : String) : List Row :=
  (data.filter (passesFilters rt filters)).filter (passesSearch rt searchTerm)

/-- The derived view `filteredAndSortedData` (lines 48-67). -/
def filteredAndSortedData (rt : JsRuntime) (data : List Row) (filters : Obj String)
    (searchTerm : String) (sortConfig : Option SortConfig) : List Row :=
  jsSort (compareRows rt sortConfig) (filteredData rt data filters searchTerm)

/-- The index `startIdx` (line 69). -/
def startIdx (currentPage : Int) : Int := (currentPage - 1) * pageSize

/-- The page `paginatedData` (line 70) cut from a view. -/
def paginatedData (view : List Row) (currentPage : Int) : List Row :=
  jsSlice view (startIdx currentPage) (startIdx currentPage + pageSize)

/-- The count `Math.ceil(length / pageSize)` shown by the pager. -/
def totalPages (length : Nat) : Nat := (length + (pageSize - 1)) / pageSize

/-- Whether `Previous` is disabled (line 152). -/
def previousDisabled (currentPage : Int) : Bool := decide (currentPage = 1)

/-- Whether `Next` is disabled (line 157). -/
def nextDisabled (view : List Row) (currentPage : Int) : Bool :=
  decide (currentPage = (totalPages view.length : Int))

/-- The rows `a`, `b` both hold integers under `k`, related by `r`. -/
def intsRelated (r : Int → Int → Prop) (k : String) (a b : Row) : Prop :=
  ∃ x y : Int, objGet a k = some (Val.num x) ∧ objGet b k = some (Val.num y) ∧ r x y

/-- The integer a row holds under `k`, 0 when it holds none. -/
def intAt (k : String) (row : Row) : Int :=
  match objGet row k with
  | some (Val.num n) => n
  | _ => 0

/-- The rows of `l` at the 0-based positions `[a, b)`. -/
def window {α : Type} (l : List α) (a b : Nat) : List α := (l.drop a).take (b - a)

/-! ## Fixture -/

/-- The constant `usersData` (lines 177-188). -/
def usersData : List Row :=
  let user (id : Int) (name : String) (age : Int) (city : String) : Row :=
    [("id", Val.num id), ("name", Val.str name), ("age", Val.num age), ("city", Val.str city)]
  [ user 1 "Ajay" 23 "Bhopal",
    user 2 "virat" 35 "delhi",
    user 3 "Rohit" 28 "mumbai",
    user 4 "sachin" 35 "Mumbai",
    user 5 "gill" 22 "badodra",
    user 6 "Modi" 29 "Gujrat",
    user 7 "Jadeja" 31 "delhi",
    user 8 "yuvraj" 27 "Punjab",
    user 9 "harshit" 34 "Gwalior",
    user 10 "Abhinav" 26 "Prayagraj" ]

/-- The constant `columns` (lines 190-195). -/
def columns : List Column :=
  [ { key := "id", title := "ID" },
    { key := "name", title := "Name" },
    { key := "age", title := "Age" },
    { key := "city", title := "City" } ]

/-! ## Operations as a transition function -/

/-- The events the component reacts to.  `resizeMove` is one pointer movement
of a drag whose pointer-down captured `initialX` and `initialWidth`;
`clickPrevious` and `clickNext` are clicks on the pager buttons, `paginate` is
a direct call of `handlePageChange`. -/
inductive Op where
  | sort (key : String)
  | filter (key value : String)
  | search (value : String)
  | reorder (newOrder : List String)
  | resizeMove (key : String) (initialX initialWidth clientX : Int)
  | paginate (page : Int)
  | clickPrevious
  | clickNext

/-- The derived view of a state. -/
def State.view (rt : JsRuntime) (data : List Row) (s : State) : List Row :=
  filteredAndSortedData rt data s.filters s.searchTerm s.sortConfig

/-- One event applied to a state; a click on a disabled button does nothing. -/
def step (rt : JsRuntime) (data : List Row) (s : State) : Op → State
  | Op.sort key => { s with sortConfig := some (handleSort s.sortConfig key) }
  | Op.filter key value => { s with filters := handleFilter s.filters key value }
  | Op.search value => { s with searchTerm := handleSearch rt value }
  | Op.reorder newOrder => { s with columnOrder := handleColumnOrderChange newOrder }
  | Op.resizeMove key initialX initialWidth clientX =>
    { s with columnWidths := handleMouseMove key initialX initialWidth clientX s.columnWidths }
  | Op.paginate page => { s with currentPage := handlePageChange page }
  | Op.clickPrevious =>
    if previousDisabled s.currentPage then s
    else { s with currentPage := handlePageChange (s.currentPage - 1) }
  | Op.clickNext =>
    if nextDisabled (s.view rt data) s.currentPage then s
    else { s with currentPage := handlePageChange (s.currentPage + 1) }

/-- A sequence of events applied in order. -/
def run (rt : JsRuntime) (data : List Row) (s : State) (ops : List Op) : State :=
  ops.foldl (step rt data) s

/-! ## Lemmas on objects -/

theorem objGet_objSet_self {α : Type} (o : Obj α) (key : String) (value : α) :
    objGet (objSet o key value) key = some value := by
  induction o with
  | nil => simp [objSet, objGet]
  | cons p o ih =>
    obtain ⟨k, v⟩ := p
    by_cases h : k = key
    · simp [objSet, objGet, h]
    · simp [objSet, objGet, h, ih]

theorem objGet_objSet_other {α : Type} (o : Obj α) (key other : String) (value : α)
    (h : other ≠ key) : objGet (objSet o key value) other = objGet o other := by
  induction o with
  | nil =>
    have h2 : key ≠ other := fun e => h e.symm
    simp [objSet, objGet, h2]
  | cons p o ih =>
    obtain ⟨k, v⟩ := p
    by_cases hk : k = key
    · subst hk
      have h2 : k ≠ other := fun e => h e.symm
      simp [objSet, objGet, h2]
    · by_cases ho : k = other
      · subst ho
        simp [objSet, objGet, hk]
      · simp [objSet, objGet, hk, ho, ih]

theorem objGet_isSome_of_mem_keys {α : Type} (o : Obj α) (key : String)
    (h : key ∈ objKeys o) : ∃ v, objGet o key = some v := by
  induction o with
  | nil => simp [objKeys] at h
  | cons p o ih =>
    obtain ⟨k, v⟩ := p
    by_cases hk : k = key
    · exact ⟨v, by simp [objGet, hk]⟩
    · have hmem : key ∈ objKeys o := by
        simp only [objKeys, List.map_cons, List.mem_cons] at h
        rcases h with h | h
        · exact absurd h.symm hk
        · exact h
      obtain ⟨w, hw⟩ := ih hmem
      exact ⟨w, by simp [objGet, hk, hw]⟩

/-! ## Lemmas on `includes` -/

/-- The test `includes` is the contiguous-substring relation on characters. -/
theorem includes_iff (s t : String) : includes s t = true ↔ t.data <:+: s.data := by
  unfold includes
  rw [List.any_eq_true]
  constructor
  · rintro ⟨u, hu, hp⟩
    rw [List.mem_tails] at hu
    rw [List.isPrefixOf_iff_prefix] at hp
    exact List.infix_iff_prefix_suffix.mpr ⟨u, hp, hu⟩
  · intro h
    obtain ⟨u, hp, hu⟩ := List.infix_iff_prefix_suffix.mp h
    exact ⟨u, (List.mem_tails _ _).mpr hu, List.isPrefixOf_iff_prefix.mpr hp⟩

/-- Every string contains the empty string. -/
theorem includes_empty (s : String) : includes s "" = true := by
  rw [includes_iff]
  exact List.nil_infix

/-! ## Lemmas on the sort -/

theorem insertBy_perm {α : Type} (cmp : α → α → Int) (a : α) (l : List α) :
    List.Perm (insertBy cmp a l) (a :: l) := by
  induction l with
  | nil => exact List.Perm.refl _
  | cons b l ih =>
    unfold insertBy
    split
    · exact List.Perm.refl _
    · exact (List.Perm.cons b ih).trans (List.Perm.swap a b l)

theorem jsSort_cons {α : Type} (cmp : α → α → Int) (a : α) (l : List α) :
    jsSort cmp (a :: l) = insertBy cmp a (jsSort cmp l) := rfl

theorem jsSort_perm {α : Type} (cmp : α → α → Int) (l : List α) :
    List.Perm (jsSort cmp l) l := by
  induction l with
  | nil => exact List.Perm.refl _
  | cons a l ih =>
    rw [jsSort_cons]
    exact (insertBy_perm cmp a _).trans (List.Perm.cons a ih)

theorem mem_jsSort {α : Type} (cmp : α → α → Int) (l : List α) (a : α) :
    a ∈ jsSort cmp l ↔ a ∈ l :=
  (jsSort_perm cmp l).mem_iff

theorem sublist_insertBy {α : Type} (cmp : α → α → Int) (a : α) (l : List α) :
    List.Sublist l (insertBy cmp a l) := by
  induction l with
  | nil => exact List.nil_sublist _
  | cons b l ih =>
    unfold insertBy
    split
    · exact List.sublist_cons_self a _
    · exact List.Sublist.cons₂ b ih

/-- An element inserted in front of something it does not compare greater
than ends up in front of it. -/
theorem pair_sublist_insertBy {α : Type} (cmp : α → α → Int) (a b : α) (l : List α)
    (hb : b ∈ l) (hab : cmp a b ≤ 0) : List.Sublist [a, b] (insertBy cmp a l) := by
  induction l with
  | nil => simp at hb
  | cons c l ih =>
    unfold insertBy
    split
    · exact List.Sublist.cons₂ a (List.singleton_sublist.mpr hb)
    · rename_i hc
      rcases List.mem_cons.mp hb with h | h
      · subst h
        exact absurd hab hc
      · exact List.Sublist.cons c (ih h)

/-- Stability: a pair in original order that the comparator does not put the
other way round keeps its order. -/
theorem pair_sublist_jsSort {α : Type} (cmp : α → α → Int) (a b : α) (l : List α)
    (h : List.Sublist [a, b] l) (hab : cmp a b ≤ 0) :
    List.Sublist [a, b] (jsSort cmp l) := by
  induction l with
  | nil => simp at h
  | cons c l ih =>
    rw [jsSort_cons]
    cases h with
    | cons _ h2 => exact (ih h2).trans (sublist_insertBy cmp c _)
    | cons₂ _ h2 =>
      have hb : b ∈ jsSort cmp l := (mem_jsSort cmp l b).mpr (List.singleton_sublist.mp h2)
      exact pair_sublist_insertBy cmp a b _ hb hab

/-- A list on which no element compares greater than a later one is left as
it is. -/
theorem jsSort_eq_self {α : Type} (cmp : α → α → Int) (l : List α)
    (h : List.Pairwise (fun a b => cmp a b ≤ 0) l) : jsSort cmp l = l := by
  induction l with
  | nil => rfl
  | cons a l ih =>
    rw [jsSort_cons, ih (List.Pairwise.of_cons h)]
    cases l with
    | nil => rfl
    | cons b l =>
      have hab : cmp a b ≤ 0 := List.rel_of_pairwise_cons h (List.mem_cons_self b l)
      simp [insertBy, hab]

/-- Insertion keeps a list ordered by `le` when the comparator decides `le`
on the elements involved. -/
theorem pairwise_insertBy {α : Type} (cmp : α → α → Int) (le : α → α → Prop)
    (htrans : ∀ x y z, le x y → le y z → le x z)
    (a : α) (l : List α)
    (hle : ∀ b ∈ l, cmp a b ≤ 0 → le a b)
    (hgt : ∀ b ∈ l, ¬ cmp a b ≤ 0 → le b a)
    (hl : List.Pairwise le l) : List.Pairwise le (insertBy cmp a l) := by
  induction l with
  | nil => simp [insertBy]
  | cons b l ih =>
    have hbl : ∀ c ∈ l, le b c := fun c hc => List.rel_of_pairwise_cons hl hc
    unfold insertBy
    split
    · rename_i hab
      have h1 : le a b := hle b (List.mem_cons_self b l) hab
      refine List.Pairwise.cons ?_ hl
      intro c hc
      rcases List.mem_cons.mp hc with h | h
      · subst h; exact h1
      · exact htrans _ _ _ h1 (hbl c h)
    · rename_i hab
      have h1 : le b a := hgt b (List.mem_cons_self b l) hab
      have ih2 := ih (fun c hc => hle c (List.mem_cons_of_mem b hc))
        (fun c hc => hgt c (List.mem_cons_of_mem b hc)) (List.Pairwise.of_cons hl)
      refine List.Pairwise.cons ?_ ih2
      intro c hc
      rcases List.mem_cons.mp ((insertBy_perm cmp a l).mem_iff.mp hc) with h | h
      · subst h; exact h1
      · exact hbl c h

/-- The sort orders the list by `le` when the comparator decides `le` on the
elements of the list. -/
theorem pairwise_jsSort {α : Type} (cmp : α → α → Int) (le : α → α → Prop)
    (htrans : ∀ x y z, le x y → le y z → le x z) (l : List α)
    (hle : ∀ a ∈ l, ∀ b ∈ l, cmp a b ≤ 0 → le a b)
    (hgt : ∀ a ∈ l, ∀ b ∈ l, ¬ cmp a b ≤ 0 → le b a) :
    List.Pairwise le (jsSort cmp l) := by
  induction l with
  | nil => simp [jsSort]
  | cons a l ih =>
    rw [jsSort_cons]
    have ih2 := ih (fun x hx y hy => hle x (List.mem_cons_of_mem a hx) y (List.mem_cons_of_mem a hy))
      (fun x hx y hy => hgt x (List.mem_cons_of_mem a hx) y (List.mem_cons_of_mem a hy))
    refine pairwise_insertBy cmp le htrans a _ ?_ ?_ ih2
    · intro b hb
      exact hle a (List.mem_cons_self a l) b (List.mem_cons_of_mem a ((mem_jsSort cmp l b).mp hb))
    · intro b hb
      exact hgt a (List.mem_cons_self a l) b (List.mem_cons_of_mem a ((mem_jsSort cmp l b).mp hb))

/-! ## Lemmas on slicing and paging -/

theorem relIndex_natCast (len n : Nat) : relIndex len (n : Int) = min n len := by
  unfold relIndex
  have h : ¬ ((n : Int) < 0) := by omega
  simp [h]

theorem jsSlice_natCast {α : Type} (xs : List α) (a b : Nat) :
    jsSlice xs (a : Int) (b : Int) = window xs (min a xs.length) (min b xs.length) := by
  simp [jsSlice, window, relIndex_natCast]

theorem window_min {α : Type} (xs : List α) (a b : Nat) :
    window xs (min a xs.length) (min b xs.length) = window xs a (min b xs.length) := by
  unfold window
  by_cases h : a ≤ xs.length
  · rw [Nat.min_eq_left h]
  · have h1 : xs.length ≤ a := by omega
    rw [Nat.min_eq_right h1, List.drop_of_length_le h1, List.drop_of_length_le (le_refl _)]
    simp

theorem window_eq_take_drop {α : Type} (xs : List α) (a k : Nat) :
    window xs a (min (a + k) xs.length) = (xs.drop a).take k := by
  unfold window
  apply List.ext_getElem?
  intro i
  simp only [List.getElem?_take, List.getElem?_drop]
  by_cases h1 : i < k
  · by_cases h2 : a + i < xs.length
    · have : i < min (a + k) xs.length - a := by omega
      simp [h1, this]
    · have h3 : xs.length ≤ a + i := by omega
      simp [h1, List.getElem?_eq_none h3]
  · have : ¬ i < min (a + k) xs.length - a := by omega
    simp [h1, this]

theorem getElem?_window {α : Type} (xs : List α) (a b i : Nat) (h : i < b - a) :
    (window xs a b)[i]? = xs[a + i]? := by
  simp [window, List.getElem?_take, h]

theorem totalPages_eq_ceil (n : Nat) : totalPages n = ⌈(n : ℚ) / (pageSize : ℚ)⌉₊ := by
  apply eq_of_forall_ge_iff
  intro m
  rw [Nat.ceil_le, div_le_iff₀ (by norm_num [pageSize])]
  have : ((m : ℚ) * (pageSize : ℚ)) = ((m * pageSize : Nat) : ℚ) := by push_cast; ring
  rw [this, Nat.cast_le]
  unfold totalPages pageSize
  omega

theorem startIdx_natCast (p : Nat) (hp : 1 ≤ p) :
    startIdx (p : Int) = (((p - 1) * pageSize : Nat) : Int) := by
  unfold startIdx
  push_cast [Nat.cast_sub hp]
  ring

theorem paginatedData_natCast (view : List Row) (p : Nat) (hp : 1 ≤ p) :
    paginatedData view (p : Int)
      = window view ((p - 1) * pageSize) (min (p * pageSize) view.length) := by
  unfold paginatedData
  have h2 : startIdx (p : Int) + (pageSize : Int) = ((p * pageSize : Nat) : Int) := by
    rw [startIdx_natCast p hp]
    have : (p - 1) * pageSize + pageSize = p * pageSize := by
      unfold pageSize; omega
    rw [← this]; push_cast; ring
  rw [h2, startIdx_natCast p hp, jsSlice_natCast, window_min]

theorem paginatedData_eq_take_drop (view : List Row) (p : Nat) (hp : 1 ≤ p) :
    paginatedData view (p : Int) = (view.drop ((p - 1) * pageSize)).take pageSize := by
  rw [paginatedData_natCast view p hp, ← window_eq_take_drop]
  have : (p - 1) * pageSize + pageSize = p * pageSize := by
    unfold pageSize; omega
  rw [this]

theorem join_pages {α : Type} (k : Nat) (P : Nat) (l : List α)
    (h : l.length ≤ P * k) :
    ((List.range P).map (fun i => (l.drop (i * k)).take k)).flatten = l := by
  induction P generalizing l with
  | zero =>
    have : l = [] := List.length_eq_zero.mp (by omega)
    simp [this]
  | succ P ih =>
    rw [List.range_succ_eq_map, List.map_cons, List.flatten_cons, List.map_map]
    have hl : (l.drop k).length ≤ P * k := by
      rw [List.length_drop]
      have : (P + 1) * k = P * k + k := by ring
      omega
    have := ih (l.drop k) hl
    have hfun : ((fun i => List.take k (List.drop (i * k) l)) ∘ Nat.succ)
        = (fun i => List.take k (List.drop (i * k) (List.drop k l))) := by
      funext i
      simp only [Function.comp, List.drop_drop]
      congr 2
      rw [Nat.succ_mul]; omega
    rw [hfun, this]
    simp

/-! ## Sort toggling -/

/-- C5: `handleSort` answers descending exactly when the state before was
ascending on the same key, and ascending otherwise; from the initial state
three calls on one key give asc, desc, asc; a call on a key other than the
current one gives asc. -/
theorem C5_handleSort_toggle :
    (∀ (sortConfig : Option SortConfig) (k : String),
      (handleSort sortConfig k = { key := some k, direction := some Direction.desc }
        ↔ sortConfig = some { key := some k, direction := some Direction.asc }) ∧
      (handleSort sortConfig k = { key := some k, direction := some Direction.asc }
        ↔ sortConfig ≠ some { key := some k, direction := some Direction.asc })) ∧
    (∀ (columns : List Column) (k : String),
      handleSort (initState columns).sortConfig k
        = { key := some k, direction := some Direction.asc } ∧
      handleSort (some (handleSort (initState columns).sortConfig k)) k
        = { key := some k, direction := some Direction.desc } ∧
      handleSort (some (handleSort (some (handleSort (initState columns).sortConfig k)) k)) k
        = { key := some k, direction := some Direction.asc }) ∧
    (∀ (sc : SortConfig) (k : String), sc.key ≠ some k →
      handleSort (some sc) k = { key := some k, direction := some Direction.asc }) := by
  refine ⟨?_, ?_, ?_⟩
  · intro sortConfig k
    cases sortConfig with
    | none => simp [handleSort]
    | some sc =>
      obtain ⟨key, dir⟩ := sc
      by_cases h : key = some k ∧ dir = some Direction.asc
      · obtain ⟨h1, h2⟩ := h
        subst h1 h2
        simp [handleSort]
      · have h2 : ¬ (SortConfig.mk key dir = { key := some k, direction := some Direction.asc }) := by
          intro e
          injection e with e1 e2
          exact h ⟨e1, e2⟩
        simp [handleSort, h, h2]
  · intro columns k
    simp [handleSort, initState]
  · intro sc k hk
    simp [handleSort, hk]

/-! ## Resize -/

/-- C8: a movement event whose computed width `w + d` is at most 50 leaves
`columnWidths` as it is; one whose computed width exceeds 50 stores `w + d`
under the dragged key and leaves every other key as it is. -/
theorem C8_resize_floor (k : String) (columnWidths : Obj Int) (initialX w clientX : Int) :
    (w + (clientX - initialX) ≤ 50 →
      handleMouseMove k initialX w clientX columnWidths = columnWidths) ∧
    (w + (clientX - initialX) > 50 →
      objGet (handleMouseMove k initialX w clientX columnWidths) k
        = some (w + (clientX - initialX)) ∧
      ∀ other : String, other ≠ k →
        objGet (handleMouseMove k initialX w clientX columnWidths) other
          = objGet columnWidths other) := by
  constructor
  · intro h
    have h2 : ¬ (w + (clientX - initialX) > 50) := by omega
    simp [handleMouseMove, h2]
  · intro h
    simp only [handleMouseMove, h, if_true, handleResize]
    exact ⟨objGet_objSet_self _ _ _, fun other ho => objGet_objSet_other _ _ _ _ ho⟩

/-- C8 on the initial fixture widths: a drag of the `age` handle from x = 10
with captured width 150 is ignored at x = -100 (width 40) and stores 180 at
x = 40, the other widths staying 150. -/
theorem C8_resize_floor_witness :
    handleMouseMove "age" 10 150 (-100) (initState columns).columnWidths
      = (initState columns).columnWidths ∧
    objGet (handleMouseMove "age" 10 150 40 (initState columns).columnWidths) "age"
      = some 180 ∧
    objGet (handleMouseMove "age" 10 150 40 (initState columns).columnWidths) "city"
      = objGet (initState columns).columnWidths "city" ∧
    objGet (initState columns).columnWidths "city" = some 150 :=
  ⟨(C8_resize_floor "age" (initState columns).columnWidths 10 150 (-100)).1 (by decide),
   ((C8_resize_floor "age" (initState columns).columnWidths 10 150 40).2 (by decide)).1,
   ((C8_resize_floor "age" (initState columns).columnWidths 10 150 40).2 (by decide)).2
     "city" (by decide),
   by decide⟩

/-! ## Filtering and searching -/

theorem mem_filteredAndSortedData (rt : JsRuntime) (data : List Row) (filters : Obj String)
    (searchTerm : String) (sortConfig : Option SortConfig) (row : Row) :
    row ∈ filteredAndSortedData rt data filters searchTerm sortConfig
      ↔ row ∈ data ∧ passesFilters rt filters row = true ∧ passesSearch rt searchTerm row = true := by
  unfold filteredAndSortedData filteredData
  rw [mem_jsSort, List.mem_filter, List.mem_filter]
  tauto

/-- A row that passes the column filters matches the filter of every key
under which it holds a truthy value. -/
theorem passesFilters_truthy (rt : JsRuntime) (filters : Obj String) (row : Row)
    (h : passesFilters rt filters row = true) (key : String) (hkey : key ∈ objKeys filters)
    (v : Val) (hv : objGet row key = some v) (ht : v.truthy = true) :
    ∃ f, objGet filters key = some f ∧
      includes (rt.toLowerCase (v.toStr rt)) (rt.toLowerCase f) = true := by
  obtain ⟨f, hf⟩ := objGet_isSome_of_mem_keys filters key hkey
  refine ⟨f, hf, ?_⟩
  unfold passesFilters at h
  rw [List.all_eq_true] at h
  have := h key hkey
  simpa [hv, ht, hf] using this

/-- A row that passes the search has a (truthy) field containing the term. -/
theorem passesSearch_field (rt : JsRuntime) (searchTerm : String) (row : Row)
    (h : passesSearch rt searchTerm row = true) :
    ∃ v ∈ objValues row, v.truthy = true ∧
      includes (rt.toLowerCase (v.toStr rt)) searchTerm = true := by
  unfold passesSearch at h
  rw [List.any_eq_true] at h
  obtain ⟨v, hv, hcond⟩ := h
  rw [Bool.and_eq_true] at hcond
  exact ⟨v, hv, hcond.1, hcond.2⟩

/-- A row with a truthy field containing the term passes the search. -/
theorem passesSearch_of_truthy_field (rt : JsRuntime) (searchTerm : String) (row : Row)
    (v : Val) (hv : v ∈ objValues row) (ht : v.truthy = true)
    (hin : includes (rt.toLowerCase (v.toStr rt)) searchTerm = true) :
    passesSearch rt searchTerm row = true := by
  unfold passesSearch
  rw [List.any_eq_true]
  exact ⟨v, hv, by simp [ht, hin]⟩

/-- C1 (as stated, at concrete inputs): a row without a `city` field is in
the derived view under the filter `city = "delhi"`, although it has no value
under `city` whose string form contains "delhi"; a row with `age: 0` is in the
derived view under the filter `age = "5"`, although "0" does not contain "5". -/
theorem C1_counterexample :
    (([("id", Val.num 1), ("name", Val.str "Ajay")] : Row)
        ∈ filteredAndSortedData asciiRuntime [[("id", Val.num 1), ("name", Val.str "Ajay")]]
            [("city", "delhi")] "" (some { key := none, direction := none }) ∧
      "city" ∈ objKeys ([("city", "delhi")] : Obj String) ∧
      ¬ ∃ v, objGet ([("id", Val.num 1), ("name", Val.str "Ajay")] : Row) "city" = some v ∧
          includes (asciiRuntime.toLowerCase (v.toStr asciiRuntime))
            (asciiRuntime.toLowerCase "delhi") = true) ∧
    (([("name", Val.str "Ajay"), ("age", Val.num 0)] : Row)
        ∈ filteredAndSortedData asciiRuntime [[("name", Val.str "Ajay"), ("age", Val.num 0)]]
            [("age", "5")] "" (some { key := none, direction := none }) ∧
      objGet ([("name", Val.str "Ajay"), ("age", Val.num 0)] : Row) "age" = some (Val.num 0) ∧
      includes (asciiRuntime.toLowerCase ((Val.num 0).toStr asciiRuntime))
        (asciiRuntime.toLowerCase "5") = false) := by
  refine ⟨⟨by decide, by decide, ?_⟩, by decide, by decide, by decide⟩
  rintro ⟨v, hv, _⟩
  have hnone : objGet ([("id", Val.num 1), ("name", Val.str "Ajay")] : Row) "city" = none := by
    decide
  rw [hnone] at hv
  cases hv

/-- C1 (amended): a row is in the derived view only if (1) for every key of
`filters` under which the row holds a truthy value, the lower-cased string
form of that value contains the lower-cased filter string, and (2) some field
of the row has a lower-cased string form containing the search term. -/
theorem C1_view_only_if (rt : JsRuntime) (data : List Row) (filters : Obj String)
    (searchTerm : String) (sortConfig : Option SortConfig) (row : Row)
    (h : row ∈ filteredAndSortedData rt data filters searchTerm sortConfig) :
    (∀ key ∈ objKeys filters, ∀ v, objGet row key = some v → v.truthy = true →
      ∃ f, objGet filters key = some f ∧
        includes (rt.toLowerCase (v.toStr rt)) (rt.toLowerCase f) = true) ∧
    (∃ v ∈ objValues row, includes (rt.toLowerCase (v.toStr rt)) searchTerm = true) := by
  rw [mem_filteredAndSortedData] at h
  obtain ⟨_, hf, hs⟩ := h
  refine ⟨fun key hkey v hv ht => passesFilters_truthy rt filters row hf key hkey v hv ht, ?_⟩
  obtain ⟨v, hv, _, hin⟩ := passesSearch_field rt searchTerm row hs
  exact ⟨v, hv, hin⟩

/-- C1 on the fixture: under `city = "delhi"` and the empty search the derived
view is exactly the rows of virat and Jadeja, and the row of virat meets both
conditions. -/
theorem C1_view_only_if_witness :
    filteredAndSortedData asciiRuntime usersData [("city", "delhi")] ""
        (some { key := none, direction := none })
      = [[("id", Val.num 2), ("name", Val.str "virat"), ("age", Val.num 35),
            ("city", Val.str "delhi")],
         [("id", Val.num 7), ("name", Val.str "Jadeja"), ("age", Val.num 31),
            ("city", Val.str "delhi")]] ∧
    ((∀ key ∈ objKeys ([("city", "delhi")] : Obj String), ∀ v,
        objGet ([("id", Val.num 2), ("name", Val.str "virat"), ("age", Val.num 35),
            ("city", Val.str "delhi")] : Row) key = some v → v.truthy = true →
        ∃ f, objGet ([("city", "delhi")] : Obj String) key = some f ∧
          includes (asciiRuntime.toLowerCase (v.toStr asciiRuntime))
            (asciiRuntime.toLowerCase f) = true) ∧
      (∃ v ∈ objValues ([("id", Val.num 2), ("name", Val.str "virat"), ("age", Val.num 35),
            ("city", Val.str "delhi")] : Row),
        includes (asciiRuntime.toLowerCase (v.toStr asciiRuntime)) "" = true)) :=
  ⟨by decide,
   C1_view_only_if asciiRuntime usersData [("city", "delhi")] ""
     (some { key := none, direction := none }) _ (by decide)⟩

/-- With no column filter, a row of `data` with a truthy field whose
lower-cased string form contains the lower-cased search value is in the
derived view after `handleSearch`. -/
theorem search_finds_truthy_field (rt : JsRuntime) (data : List Row) (value : String)
    (sortConfig : Option SortConfig) (row : Row) (hrow : row ∈ data)
    (v : Val) (hv : v ∈ objValues row) (ht : v.truthy = true)
    (hin : includes (rt.toLowerCase (v.toStr rt)) (rt.toLowerCase value) = true) :
    row ∈ filteredAndSortedData rt data [] (handleSearch rt value) sortConfig := by
  rw [mem_filteredAndSortedData]
  refine ⟨hrow, by simp [passesFilters, objKeys], ?_⟩
  exact passesSearch_of_truthy_field rt _ row v hv ht hin

/-- C2 (the code at the failing inputs): the row `{id: 0, name: 'zero'}` has
the field `0` whose string form "0" contains the search value "0", and the row
`{id: 7, name: ''}` has a field whose string form contains the empty search
value, yet after `handleSearch` neither is in the derived view; on the
fixture, `handleSearch("35")` leaves exactly the rows of virat and sachin. -/
theorem C2_falsy_field_not_found :
    ((∃ v ∈ objValues ([("id", Val.num 0), ("name", Val.str "zero")] : Row),
        includes (asciiRuntime.toLowerCase (v.toStr asciiRuntime))
          (asciiRuntime.toLowerCase "0") = true) ∧
      filteredAndSortedData asciiRuntime [[("id", Val.num 0), ("name", Val.str "zero")]] []
        (handleSearch asciiRuntime "0") (some { key := none, direction := none }) = []) ∧
    ((∃ v ∈ objValues ([("name", Val.str "")] : Row),
        includes (asciiRuntime.toLowerCase (v.toStr asciiRuntime))
          (asciiRuntime.toLowerCase "") = true) ∧
      filteredAndSortedData asciiRuntime [[("name", Val.str "")]] []
        (handleSearch asciiRuntime "") (some { key := none, direction := none }) = []) ∧
    filteredAndSortedData asciiRuntime usersData [] (handleSearch asciiRuntime "35")
        (some { key := none, direction := none })
      = [[("id", Val.num 2), ("name", Val.str "virat"), ("age", Val.num 35),
            ("city", Val.str "delhi")],
         [("id", Val.num 4), ("name", Val.str "sachin"), ("age", Val.num 35),
            ("city", Val.str "Mumbai")]] := by
  refine ⟨⟨⟨Val.num 0, by decide, by decide⟩, by decide⟩,
    ⟨⟨Val.str "", by decide, by decide⟩, by decide⟩, by decide⟩

/-- C3 (the code at the failing input): from the initial state on the
fixture, a click on Next followed by the filter `city = "delhi"` reaches a
state with two filtered rows, hence one page, whose current page is 2; the
page shown is empty and Next is enabled. -/
theorem C3_page_out_of_range :
    (run asciiRuntime usersData (initState columns)
        [Op.clickNext, Op.filter "city" "delhi"]).currentPage = 2 ∧
    ((run asciiRuntime usersData (initState columns)
        [Op.clickNext, Op.filter "city" "delhi"]).view asciiRuntime usersData).length = 2 ∧
    totalPages ((run asciiRuntime usersData (initState columns)
        [Op.clickNext, Op.filter "city" "delhi"]).view asciiRuntime usersData).length = 1 ∧
    paginatedData ((run asciiRuntime usersData (initState columns)
        [Op.clickNext, Op.filter "city" "delhi"]).view asciiRuntime usersData) 2 = [] ∧
    nextDisabled ((run asciiRuntime usersData (initState columns)
        [Op.clickNext, Op.filter "city" "delhi"]).view asciiRuntime usersData) 2 = false := by
  refine ⟨by decide, by decide, by decide, by decide, by decide⟩

/-! ## Page size -/

/-- C4 (as stated, at a concrete input): with the fixture filtered by
`city = "delhi"` (two rows) and `currentPage = 2`, the page is empty while
`min(pageSize, length - (currentPage - 1) * pageSize)` is `-3`. -/
theorem C4_counterexample :
    (1 : Int) ≤ 2 ∧
    (filteredAndSortedData asciiRuntime usersData [("city", "delhi")] ""
        (some { key := none, direction := none })).length = 2 ∧
    (paginatedData (filteredAndSortedData asciiRuntime usersData [("city", "delhi")] ""
        (some { key := none, direction := none })) 2).length = 0 ∧
    (((paginatedData (filteredAndSortedData asciiRuntime usersData [("city", "delhi")] ""
        (some { key := none, direction := none })) 2).length : Int)
      ≠ min (pageSize : Int)
          (((filteredAndSortedData asciiRuntime usersData [("city", "delhi")] ""
            (some { key := none, direction := none })).length : Int)
            - (2 - 1) * (pageSize : Int))) := by
  refine ⟨by decide, by decide, by decide, by decide⟩

/-- C4 (amended): for `currentPage >= 1` the number of rows of `paginatedData`
is `min(pageSize, max(0, length - (currentPage - 1) * pageSize))`. -/
theorem C4_page_length (rt : JsRuntime) (data : List Row) (filters : Obj String)
    (searchTerm : String) (sortConfig : Option SortConfig) (currentPage : Int)
    (h : 1 ≤ currentPage) :
    ((paginatedData (filteredAndSortedData rt data filters searchTerm sortConfig)
        currentPage).length : Int)
      = min (pageSize : Int)
          (max 0 (((filteredAndSortedData rt data filters searchTerm sortConfig).length : Int)
            - (currentPage - 1) * (pageSize : Int))) := by
  obtain ⟨p, rfl⟩ : ∃ p : Nat, currentPage = (p : Int) := ⟨currentPage.toNat, by omega⟩
  have hp : 1 ≤ p := by omega
  rw [paginatedData_eq_take_drop _ p hp, List.length_take, List.length_drop]
  generalize (filteredAndSortedData rt data filters searchTerm sortConfig).length = n
  have hps : pageSize = 5 := rfl
  rw [hps]
  have : (p - 1) * 5 = 5 * p - 5 := by omega
  rw [this]
  push_cast
  omega

/-- C4 on the fixture: page 2 of the unfiltered view has five rows. -/
theorem C4_page_length_witness :
    (1 : Int) ≤ 2 ∧
    ((paginatedData (filteredAndSortedData asciiRuntime usersData [] ""
        (some { key := none, direction := none })) 2).length : Int)
      = min (pageSize : Int)
          (max 0 (((filteredAndSortedData asciiRuntime usersData [] ""
            (some { key := none, direction := none })).length : Int)
            - (2 - 1) * (pageSize : Int))) :=
  ⟨by decide, C4_page_length asciiRuntime usersData [] ""
    (some { key := none, direction := none }) 2 (by decide)⟩

/-! ## Sorting -/

theorem compareRows_asc_ints (rt : JsRuntime) (k : String) (a b : Row) (x y : Int)
    (ha : objGet a k = some (Val.num x)) (hb : objGet b k = some (Val.num y)) :
    compareRows rt (some { key := some k, direction := some Direction.asc }) a b ≤ 0
      ↔ x ≤ y := by
  simp only [compareRows, propName, ha, hb, jsLt]
  by_cases h1 : x < y
  · simp [h1]; omega
  · by_cases h2 : y < x
    · simp [h1, h2]
    · simp [h1, h2]; omega

theorem compareRows_desc_ints (rt : JsRuntime) (k : String) (a b : Row) (x y : Int)
    (ha : objGet a k = some (Val.num x)) (hb : objGet b k = some (Val.num y)) :
    compareRows rt (some { key := some k, direction := some Direction.desc }) a b ≤ 0
      ↔ y ≤ x := by
  simp only [compareRows, propName, ha, hb, jsLt]
  by_cases h1 : x < y
  · simp [h1]
  · by_cases h2 : y < x
    · simp [h1, h2]; omega
    · simp [h1, h2]; omega

theorem intAt_eq (k : String) (a : Row) (x : Int) (ha : objGet a k = some (Val.num x)) :
    intAt k a = x := by
  simp [intAt, ha]

/-- Adjacent rows of a sorted list of rows holding integers under `k`. -/
theorem chain_intsRelated (r : Int → Int → Prop) (k : String) (l : List Row)
    (hint : ∀ row ∈ l, ∃ n : Int, objGet row k = some (Val.num n))
    (hp : List.Pairwise (fun a b => r (intAt k a) (intAt k b)) l) :
    List.Chain' (intsRelated r k) l := by
  apply List.Pairwise.chain'
  rw [List.Pairwise.and_mem] at hp
  refine hp.imp ?_
  intro a b hab
  obtain ⟨ha, hb, hr⟩ := hab
  obtain ⟨x, hx⟩ := hint a ha
  obtain ⟨y, hy⟩ := hint b hb
  rw [intAt_eq k a x hx, intAt_eq k b y hy] at hr
  exact ⟨x, y, hx, hy, hr⟩

theorem filteredData_subset (rt : JsRuntime) (data : List Row) (filters : Obj String)
    (searchTerm : String) (row : Row) (h : row ∈ filteredData rt data filters searchTerm) :
    row ∈ data := by
  unfold filteredData at h
  exact (List.mem_filter.mp (List.mem_filter.mp h).1).1

/-- C6: when every row of `data` holds an integer under `k`, the derived view
sorted ascending on `k` has `a[k] <= b[k]` on every adjacent pair, sorted
descending it has `a[k] >= b[k]`, and either way it is a permutation of the
rows passing the filters and the search. -/
theorem C6_sorted_permutation (rt : JsRuntime) (data : List Row) (filters : Obj String)
    (searchTerm : String) (k : String)
    (hint : ∀ row ∈ data, ∃ n : Int, objGet row k = some (Val.num n)) :
    List.Chain' (intsRelated (fun x y => x ≤ y) k)
      (filteredAndSortedData rt data filters searchTerm
        (some { key := some k, direction := some Direction.asc })) ∧
    List.Chain' (intsRelated (fun x y => x ≥ y) k)
      (filteredAndSortedData rt data filters searchTerm
        (some { key := some k, direction := some Direction.desc })) ∧
    List.Perm
      (filteredAndSortedData rt data filters searchTerm
        (some { key := some k, direction := some Direction.asc }))
      (filteredData rt data filters searchTerm) ∧
    List.Perm
      (filteredAndSortedData rt data filters searchTerm
        (some { key := some k, direction := some Direction.desc }))
      (filteredData rt data filters searchTerm) := by
  have hf : ∀ row ∈ filteredData rt data filters searchTerm,
      ∃ n : Int, objGet row k = some (Val.num n) :=
    fun row hrow => hint row (filteredData_subset rt data filters searchTerm row hrow)
  refine ⟨?_, ?_, jsSort_perm _ _, jsSort_perm _ _⟩
  · apply chain_intsRelated
    · intro row hrow
      exact hf row ((mem_jsSort _ _ row).mp hrow)
    · apply pairwise_jsSort _ (fun a b => intAt k a ≤ intAt k b)
        (fun x y z hxy hyz => le_trans hxy hyz)
      · intro a ha b hb hab
        obtain ⟨x, hx⟩ := hf a ha
        obtain ⟨y, hy⟩ := hf b hb
        rw [intAt_eq k a x hx, intAt_eq k b y hy]
        exact (compareRows_asc_ints rt k a b x y hx hy).mp hab
      · intro a ha b hb hab
        obtain ⟨x, hx⟩ := hf a ha
        obtain ⟨y, hy⟩ := hf b hb
        rw [intAt_eq k a x hx, intAt_eq k b y hy]
        have := mt (compareRows_asc_ints rt k a b x y hx hy).mpr hab
        omega
  · apply chain_intsRelated
    · intro row hrow
      exact hf row ((mem_jsSort _ _ row).mp hrow)
    · apply pairwise_jsSort _ (fun a b => intAt k a ≥ intAt k b)
        (fun x y z hxy hyz => le_trans hyz hxy)
      · intro a ha b hb hab
        obtain ⟨x, hx⟩ := hf a ha
        obtain ⟨y, hy⟩ := hf b hb
        rw [intAt_eq k a x hx, intAt_eq k b y hy]
        exact (compareRows_desc_ints rt k a b x y hx hy).mp hab
      · intro a ha b hb hab
        obtain ⟨x, hx⟩ := hf a ha
        obtain ⟨y, hy⟩ := hf b hb
        rw [intAt_eq k a x hx, intAt_eq k b y hy]
        have := mt (compareRows_desc_ints rt k a b x y hx hy).mpr hab
        show y ≥ x
        omega

theorem usersData_age (row : Row) (h : row ∈ usersData) :
    ∃ n : Int, objGet row "age" = some (Val.num n) := by
  simp only [usersData, List.mem_cons, List.mem_singleton, List.not_mem_nil, or_false] at h
  rcases h with h | h | h | h | h | h | h | h | h | h <;> subst h <;> exact ⟨_, rfl⟩

/-- C6 on the fixture: every row holds an integer under `age`; the unfiltered
view sorted ascending on `age` lists the ages 22, 23, 26, 27, 28, 29, 31, 34,
35, 35. -/
theorem C6_sorted_permutation_witness :
    (∀ row ∈ usersData, ∃ n : Int, objGet row "age" = some (Val.num n)) ∧
    (filteredAndSortedData asciiRuntime usersData [] ""
        (some { key := some "age", direction := some Direction.asc })).map (intAt "age")
      = [22, 23, 26, 27, 28, 29, 31, 34, 35, 35] ∧
    (List.Chain' (intsRelated (fun x y => x ≤ y) "age")
      (filteredAndSortedData asciiRuntime usersData [] ""
        (some { key := some "age", direction := some Direction.asc })) ∧
    List.Chain' (intsRelated (fun x y => x ≥ y) "age")
      (filteredAndSortedData asciiRuntime usersData [] ""
        (some { key := some "age", direction := some Direction.desc })) ∧
    List.Perm
      (filteredAndSortedData asciiRuntime usersData [] ""
        (some { key := some "age", direction := some Direction.asc }))
      (filteredData asciiRuntime usersData [] "") ∧
    List.Perm
      (filteredAndSortedData asciiRuntime usersData [] ""
        (some { key := some "age", direction := some Direction.desc }))
      (filteredData asciiRuntime usersData [] "")) :=
  ⟨usersData_age, by decide,
    C6_sorted_permutation asciiRuntime usersData [] "" "age" usersData_age⟩

theorem compareRows_tie (rt : JsRuntime) (sc : SortConfig) (a b : Row)
    (h1 : jsLt rt (objGet a (propName sc.key)) (objGet b (propName sc.key)) = false)
    (h2 : jsLt rt (objGet b (propName sc.key)) (objGet a (propName sc.key)) = false) :
    compareRows rt (some sc) a b = 0 := by
  simp [compareRows, h1, h2]

theorem pair_sublist_filteredData (rt : JsRuntime) (data : List Row) (filters : Obj String)
    (searchTerm : String) (a b : Row) (h : List.Sublist [a, b] data)
    (ha : passesFilters rt filters a = true ∧ passesSearch rt searchTerm a = true)
    (hb : passesFilters rt filters b = true ∧ passesSearch rt searchTerm b = true) :
    List.Sublist [a, b] (filteredData rt data filters searchTerm) := by
  unfold filteredData
  have h1 := (h.filter (passesFilters rt filters)).filter (passesSearch rt searchTerm)
  simpa [List.filter, ha.1, ha.2, hb.1, hb.2] using h1

/-- Stability of the derived view: in every sort state, two passing rows `a`
before `b` in `data` with neither `a[key] < b[key]` nor `a[key] > b[key]` keep
their order. -/
theorem filteredAndSortedData_stable (rt : JsRuntime) (data : List Row)
    (filters : Obj String) (searchTerm : String) (sc : SortConfig) (a b : Row)
    (hsub : List.Sublist [a, b] data)
    (ha : passesFilters rt filters a = true ∧ passesSearch rt searchTerm a = true)
    (hb : passesFilters rt filters b = true ∧ passesSearch rt searchTerm b = true)
    (h1 : jsLt rt (objGet a (propName sc.key)) (objGet b (propName sc.key)) = false)
    (h2 : jsLt rt (objGet b (propName sc.key)) (objGet a (propName sc.key)) = false) :
    List.Sublist [a, b] (filteredAndSortedData rt data filters searchTerm (some sc)) := by
  unfold filteredAndSortedData
  apply pair_sublist_jsSort _ a b _
    (pair_sublist_filteredData rt data filters searchTerm a b hsub ha hb)
  rw [compareRows_tie rt sc a b h1 h2]

/-- On the fixture sorted ascending on `age`, virat and sachin are both 35 and
virat, who comes first in `usersData`, stays in front of sachin. -/
theorem filteredAndSortedData_stable_fixture :
    List.Sublist
      [[("id", Val.num 2), ("name", Val.str "virat"), ("age", Val.num 35),
          ("city", Val.str "delhi")],
       [("id", Val.num 4), ("name", Val.str "sachin"), ("age", Val.num 35),
          ("city", Val.str "Mumbai")]]
      (filteredAndSortedData asciiRuntime usersData [] ""
        (some { key := some "age", direction := some Direction.asc })) :=
  filteredAndSortedData_stable asciiRuntime usersData [] ""
    { key := some "age", direction := some Direction.asc } _ _
    (by decide) (by decide) (by decide) (by decide) (by decide)

/-- With `sortConfig` null the derived view is the passing rows in data order. -/
theorem filteredAndSortedData_null_config (rt : JsRuntime) (data : List Row)
    (filters : Obj String) (searchTerm : String) :
    filteredAndSortedData rt data filters searchTerm none
      = filteredData rt data filters searchTerm := by
  unfold filteredAndSortedData
  apply jsSort_eq_self
  exact List.pairwise_of_forall (fun _ _ => by simp [compareRows])

/-- In the initial state, when no row of `data` has a field named "null", the
derived view is the passing rows in data order. -/
theorem filteredAndSortedData_initial (rt : JsRuntime) (data : List Row)
    (filters : Obj String) (searchTerm : String) (columns : List Column)
    (hnull : ∀ row ∈ data, objGet row "null" = none) :
    filteredAndSortedData rt data filters searchTerm (initState columns).sortConfig
      = filteredData rt data filters searchTerm := by
  unfold filteredAndSortedData
  apply jsSort_eq_self
  apply List.pairwise_of_forall_mem_list
  intro a ha b hb
  have hna := hnull a (filteredData_subset rt data filters searchTerm a ha)
  have hnb := hnull b (filteredData_subset rt data filters searchTerm b hb)
  simp [compareRows, initState, propName, hna, hnb, jsLt]

/-- C7 (the code at the failing input): in the initial state the comparator
reads `a[null]`, the property named "null"; two rows holding 1 and 2 under
that name both pass the filters and the search, compare as `1 < 2`, and are
listed in the opposite of their data order. -/
theorem C7_initial_state_reorders :
    (initState [{ key := "null", title := "Null" }]).sortConfig
      = some { key := none, direction := none } ∧
    filteredData asciiRuntime [[("null", Val.num 1)], [("null", Val.num 2)]] [] ""
      = [[("null", Val.num 1)], [("null", Val.num 2)]] ∧
    jsLt asciiRuntime (objGet ([("null", Val.num 1)] : Row) (propName none))
      (objGet ([("null", Val.num 2)] : Row) (propName none)) = true ∧
    filteredAndSortedData asciiRuntime [[("null", Val.num 1)], [("null", Val.num 2)]] [] ""
        (initState [{ key := "null", title := "Null" }]).sortConfig
      = [[("null", Val.num 2)], [("null", Val.num 1)]] := by
  refine ⟨rfl, by decide, by decide, by decide⟩

/-! ## Column order -/

theorem step_columnOrder (rt : JsRuntime) (data : List Row) (s : State) (op : Op) :
    (step rt data s op).columnOrder
      = match op with
        | Op.reorder newOrder => newOrder
        | _ => s.columnOrder := by
  cases op <;> simp [step, handleColumnOrderChange]
  all_goals split <;> rfl

theorem run_columnOrder_perm (rt : JsRuntime) (data : List Row) (keys : List String)
    (ops : List Op) (s : State)
    (hops : ∀ newOrder, Op.reorder newOrder ∈ ops → List.Perm newOrder keys)
    (hs : List.Perm s.columnOrder keys) :
    List.Perm (run rt data s ops).columnOrder keys := by
  induction ops generalizing s with
  | nil => exact hs
  | cons op ops ih =>
    have hrun : run rt data s (op :: ops) = run rt data (step rt data s op) ops := rfl
    rw [hrun]
    apply ih _ (fun newOrder hmem => hops newOrder (List.mem_cons_of_mem op hmem))
    rw [step_columnOrder]
    cases op with
    | reorder newOrder => exact hops newOrder (List.mem_cons_self _ _)
    | _ => exact hs

/-- C9 (as stated, at a concrete input): after `handleColumnOrderChange([])`
on the fixture columns, `columnOrder` is empty and no permutation of the four
column keys. -/
theorem C9_counterexample :
    (run asciiRuntime usersData (initState columns) [Op.reorder []]).columnOrder = [] ∧
    ¬ List.Perm (run asciiRuntime usersData (initState columns) [Op.reorder []]).columnOrder
        (columns.map (fun col => col.key)) := by
  refine ⟨rfl, ?_⟩
  intro h
  have := h.length_eq
  revert this
  decide

/-- C9 (amended): `columnOrder` is initially the keys of `columns` in input
order, and after any sequence of operations in which every
`handleColumnOrderChange(newOrder)` is given a permutation of those keys it is
a permutation of them. -/
theorem C9_columnOrder_permutation (rt : JsRuntime) (data : List Row)
    (columns : List Column) (ops : List Op)
    (hops : ∀ newOrder, Op.reorder newOrder ∈ ops →
      List.Perm newOrder (columns.map (fun col => col.key))) :
    (initState columns).columnOrder = columns.map (fun col => col.key) ∧
    List.Perm (run rt data (initState columns) ops).columnOrder
      (columns.map (fun col => col.key)) :=
  ⟨rfl, run_columnOrder_perm rt data _ ops _ hops (List.Perm.refl _)⟩

theorem fixture_reorder_perm (newOrder : List String)
    (h : Op.reorder newOrder ∈
      [Op.sort "age", Op.reorder ["city", "age", "name", "id"], Op.search "Delhi",
        Op.resizeMove "id" 10 150 40, Op.clickNext, Op.paginate 2, Op.clickPrevious,
        Op.filter "city" "m"]) :
    List.Perm newOrder (columns.map (fun col => col.key)) := by
  simp only [List.mem_cons, List.mem_singleton, Op.reorder.injEq, List.not_mem_nil,
    or_false, false_or, reduceCtorEq] at h
  subst h
  decide

/-- C9 on the fixture: a run through every operation, with one reorder to
`city, age, name, id`, ends with that order, a permutation of the keys. -/
theorem C9_columnOrder_permutation_witness :
    (run asciiRuntime usersData (initState columns)
      [Op.sort "age", Op.reorder ["city", "age", "name", "id"], Op.search "Delhi",
        Op.resizeMove "id" 10 150 40, Op.clickNext, Op.paginate 2, Op.clickPrevious,
        Op.filter "city" "m"]).columnOrder = ["city", "age", "name", "id"] ∧
    ((initState columns).columnOrder = columns.map (fun col => col.key) ∧
      List.Perm (run asciiRuntime usersData (initState columns)
        [Op.sort "age", Op.reorder ["city", "age", "name", "id"], Op.search "Delhi",
          Op.resizeMove "id" 10 150 40, Op.clickNext, Op.paginate 2, Op.clickPrevious,
          Op.filter "city" "m"]).columnOrder
        (columns.map (fun col => col.key))) :=
  ⟨rfl, C9_columnOrder_permutation asciiRuntime usersData columns _ fixture_reorder_perm⟩

/-! ## Pages -/

/-- C10: page `p` (for `1 <= p <= ceil(n / 5)`) is the rows of the derived
view at the positions `[(p - 1) * 5, min(p * 5, n))`, and the pages
`1 .. ceil(n / 5)` concatenated in order are the derived view; on the
unfiltered fixture page 1 is rows 1-5, page 2 is rows 6-10, the pager counts 2
pages and Next is disabled on page 2. -/
theorem C10_pages_partition :
    (∀ (rt : JsRuntime) (data : List Row) (filters : Obj String) (searchTerm : String)
        (sortConfig : Option SortConfig),
      (∀ p : Nat, 1 ≤ p →
        p ≤ totalPages (filteredAndSortedData rt data filters searchTerm sortConfig).length →
        paginatedData (filteredAndSortedData rt data filters searchTerm sortConfig) (p : Int)
          = window (filteredAndSortedData rt data filters searchTerm sortConfig)
              ((p - 1) * 5)
              (min (p * 5)
                (filteredAndSortedData rt data filters searchTerm sortConfig).length)) ∧
      ((List.range
          (totalPages (filteredAndSortedData rt data filters searchTerm sortConfig).length)).map
          (fun (i : Nat) => paginatedData
            (filteredAndSortedData rt data filters searchTerm sortConfig)
            ((i : Int) + 1))).flatten
        = filteredAndSortedData rt data filters searchTerm sortConfig) ∧
    (paginatedData (filteredAndSortedData asciiRuntime usersData [] ""
        (initState columns).sortConfig) 1 = usersData.take 5 ∧
      paginatedData (filteredAndSortedData asciiRuntime usersData [] ""
        (initState columns).sortConfig) 2 = usersData.drop 5 ∧
      totalPages (filteredAndSortedData asciiRuntime usersData [] ""
        (initState columns).sortConfig).length = 2 ∧
      nextDisabled (filteredAndSortedData asciiRuntime usersData [] ""
        (initState columns).sortConfig) 2 = true ∧
      nextDisabled (filteredAndSortedData asciiRuntime usersData [] ""
        (initState columns).sortConfig) 1 = false) := by
  refine ⟨?_, by decide, by decide, by decide, by decide, by decide⟩
  intro rt data filters searchTerm sortConfig
  generalize filteredAndSortedData rt data filters searchTerm sortConfig = view
  constructor
  · intro p hp _
    exact paginatedData_natCast view p hp
  · have hpage : (fun i : Nat => paginatedData view ((i : Int) + 1))
        = (fun i : Nat => (view.drop (i * pageSize)).take pageSize) := by
      funext i
      have := paginatedData_eq_take_drop view (i + 1) (by omega)
      simpa using this
    rw [hpage]
    apply join_pages
    unfold totalPages pageSize
    omega

end TableTwo
